import Mathlib

/-! Verification of the commerce-seed-catalog scripts.

This file gives a shallow embedding of the repository's core logic: the
path resolver `getPreviewPublishPaths`, the admin URL builder
`createAdminUrl`, the single-SKU catalog lookup `fetchCatalogProduct`,
the bulk-job lifecycle (`createBulkJob` / `pollBulkJob`), the per-product
preview/publish call `callPreviewPublish`, and the page/product loops of
the two seeding pipelines.  Strings are modelled as lists of characters;
HTTP interactions are modelled by passing the relevant responses as
explicit inputs. -/

namespace SeedCatalog

abbrev Str := List Char

/-- JS substring test anchored at the start: `leadingMatch pat s` holds when
`s` begins with `pat`. -/
def leadingMatch : Str → Str → Bool
  | [], _ => true
  | _ :: _, [] => false
  | p :: ps, c :: cs => p == c && leadingMatch ps cs

/-- JS `s.includes(pat)` for strings. -/
def includesSub : Str → Str → Bool
  | [], pat => leadingMatch pat []
  | c :: t, pat => leadingMatch pat (c :: t) || includesSub t pat

/-- JS `s.replace(pat, repl)` with a string pattern: replaces the first
(leftmost) occurrence only. -/
def replaceFirst (pat repl : Str) : Str → Str
  | [] => if leadingMatch pat [] then repl else []
  | c :: t =>
    if leadingMatch pat (c :: t) then repl ++ (c :: t).drop pat.length
    else c :: replaceFirst pat repl t

/-- the literal placeholder `\x7b\x7bsku\x7d\x7d` that path patterns may contain. -/
def skuToken : Str := ['{', '{', 's', 'k', 'u', '}', '}']

/-- the literal placeholder `\x7b\x7burlkey\x7d\x7d` that path patterns may contain. -/
def urlkeyToken : Str := ['{', '{', 'u', 'r', 'l', 'k', 'e', 'y', '}', '}']

/-- the reserved `base` key of `confMap`, excluded from pattern matching. -/
def baseKey : Str := ['b', 'a', 's', 'e']

/-- match descriptor attached to a path pattern in `confMap`. -/
structure MatchConf where
  storeCode : Str
  storeViewCode : Str
deriving DecidableEq, Repr

/-- `confMap` of `site-config.json`: path patterns with their match descriptors. -/
abbrev ConfMap := List (Str × MatchConf)

/-- the ambient store context read from `process.env` by the resolver. -/
structure StoreEnv where
  magentoStoreCode : Str
  magentoStoreViewCode : Str
deriving DecidableEq, Repr

/-- the `reduce` pass of `getPreviewPublishPaths`: all non-`base` patterns
whose match descriptor equals the active store and store-view codes. -/
def matchedPathPatterns (env : StoreEnv) (confMap : ConfMap) : List Str :=
  ((confMap.filter (fun e => !(e.1 == baseKey))).filter
      (fun e => env.magentoStoreCode == e.2.storeCode
        && env.magentoStoreViewCode == e.2.storeViewCode)).map Prod.fst

/-- the `map` pass of `getPreviewPublishPaths`: substitute the sku into the
first occurrence of its placeholder when the sku is truthy, then likewise
the urlKey. -/
def substituteTokens (sku urlKey pat : Str) : Str :=
  let p1 := if !sku.isEmpty then replaceFirst skuToken sku pat else pat
  if !urlKey.isEmpty then replaceFirst urlkeyToken urlKey p1 else p1

/-- `getPreviewPublishPaths` of `src/utils/admin.js`. -/
def getPreviewPublishPaths (env : StoreEnv) (confMap : ConfMap) (sku urlKey : Str) : List Str :=
  ((matchedPathPatterns env confMap).map (substituteTokens sku urlKey)).filter
    (fun p => !includesSub p skuToken && !includesSub p urlkeyToken)

/-- `ADMIN_ORIGIN` of `src/utils/admin.js`. -/
def ADMIN_ORIGIN : Str := "https://admin.hlx.page".toList

/-- default branch reference applied by `createAdminUrl`'s destructuring. -/
def mainRef : Str := ['m', 'a', 'i', 'n']

/-- query key carrying the configured admin version. -/
def hlxAdminVersionKey : Str := "hlx-admin-version".toList

/-- config object destructured by `createAdminUrl`; `none` models an absent
(undefined) property. -/
structure AdminUrlConfig where
  org : Option Str
  site : Option Str
  ref : Option Str
  adminVersion : Option Str
deriving DecidableEq, Repr

/-- JS truthiness of an optional string property: defined and non-empty. -/
def truthy : Option Str → Bool
  | none => false
  | some s => !s.isEmpty

/-- observable parts of the JS `URL` built by `createAdminUrl`. -/
structure AdminUrl where
  origin : Str
  pathname : Str
  queryPairs : List (Str × Str)
deriving DecidableEq, Repr

/-- `createAdminUrl` of `src/utils/admin.js`. -/
def createAdminUrl (config : AdminUrlConfig) (api : Str) (path : Str)
    (searchParams : List (Str × Str)) : AdminUrl :=
  let refVal := config.ref.getD mainRef
  let base := '/' :: api
  let pathname1 :=
    if truthy config.org && truthy config.site && !refVal.isEmpty then
      base ++ ('/' :: config.org.getD []) ++ ('/' :: config.site.getD []) ++ ('/' :: refVal)
    else base
  let withVersion :=
    match config.adminVersion with
    | some v => if !v.isEmpty then searchParams ++ [(hlxAdminVersionKey, v)] else searchParams
    | none => searchParams
  { origin := ADMIN_ORIGIN, pathname := pathname1 ++ path, queryPairs := withVersion }

/-- product record fetched from the catalog. -/
structure Product where
  sku : Str
  name : Str
  urlKey : Str
deriving DecidableEq, Repr

/-- body of the single-SKU catalog response: either `resp.json()` throws, or
it yields the (possibly empty) product list `json.data.products`. -/
inductive CatalogBody where
  | malformed (msg : Str)
  | products (items : List Product)
deriving DecidableEq, Repr

/-- the HTTP response consumed by `fetchCatalogProduct`. -/
structure CatalogResp where
  ok : Bool
  status : Nat
  statusText : Str
  body : CatalogBody
deriving DecidableEq, Repr

/-- cause thrown inside the parsing `try` of `fetchCatalogProduct`: either the
could-not-find-product error for an empty product list, or the json error. -/
inductive CatalogLookupInner where
  | notFound
  | jsonErr (msg : Str)
deriving DecidableEq, Repr

/-- failure modes of `fetchCatalogProduct`: the non-ok network throw, or an
inner cause re-thrown by the catch with the failed-to-parse wrapper. -/
inductive CatalogLookupError where
  | network (status : Nat) (statusText : Str)
  | wrapped (inner : CatalogLookupInner)
deriving DecidableEq, Repr

/-- `fetchCatalogProduct` of `src/queries/catalog.js`, as a function of the
catalog endpoint's response. -/
def fetchCatalogProduct (resp : CatalogResp) : Except CatalogLookupError Product :=
  if !resp.ok then .error (.network resp.status resp.statusText)
  else
    match resp.body with
    | .malformed m => .error (.wrapped (.jsonErr m))
    | .products [] => .error (.wrapped .notFound)
    | .products (p :: _) => .ok p

/-- one per-path resource of a bulk job's detail report. -/
structure JobResource where
  path : Str
  status : Nat
deriving DecidableEq, Repr

/-- the `data` object of a bulk job's detail report. -/
structure JobData where
  resources : List JobResource
deriving DecidableEq, Repr

/-- a polled bulk-job detail response. -/
structure JobDetails where
  state : Str
  data : JobData
deriving DecidableEq, Repr

/-- terminal job state checked by `pollBulkJob`. -/
def stoppedState : Str := "stopped".toList

/-- fixed inter-poll sleep of `pollBulkJob`, in milliseconds. -/
def pollDelayMs : Nat := 1000

/-- fuel-indexed run of `pollBulkJob`'s while-loop over the stream of job
detail responses (`responses i` is the body of the i-th GET): returns the
first stopped job object and the total slept time, or `none` when the loop
has not finished within `fuel` iterations.  The loop sleeps after every
poll, including the final one. -/
def pollBulkJobRun (responses : Nat → JobDetails) : Nat → Nat → Nat → Option (JobDetails × Nat)
  | 0, _, _ => none
  | fuel + 1, i, elapsed =>
    let resp := responses i
    if resp.state == stoppedState then some (resp, elapsed + pollDelayMs)
    else pollBulkJobRun responses fuel (i + 1) (elapsed + pollDelayMs)

/-- the `live` admin api name. -/
def liveApi : Str := "live".toList

/-- the `preview` admin api name. -/
def previewApi : Str := "preview".toList

/-- the `publish` job kind used when polling a `live` bulk job. -/
def publishKind : Str := "publish".toList

/-- message of the JS TypeError raised when a property of `undefined` is read. -/
def jsTypeErrorMsg : Str := "TypeError: cannot read properties of undefined".toList

/-- body of the bulk-creation POST response: `response.json()` throws, or the
body lacks a `job` object, or it carries the created job's name. -/
inductive BulkBody where
  | malformed (msg : Str)
  | noJob
  | withJob (jobName : Str)
deriving DecidableEq, Repr

/-- outcome of the creation POST itself: the fetch promise rejects (outside
the `try` of `createBulkJob`), or a response arrives. -/
inductive BulkPostResult where
  | rejected (msg : Str)
  | response (body : BulkBody)
deriving DecidableEq, Repr

/-- failure modes of `createBulkJob`: an error propagated unchanged, or one
re-thrown by its catch with the bulk-job-failed wrapper. -/
inductive BulkError where
  | raw (msg : Str)
  | bulkJobFailed (cause : Str)
deriving DecidableEq, Repr

/-- the poll call issued by `createBulkJob` on success: job kind and name
passed to `pollBulkJob`. -/
structure PollRequest where
  jobKind : Str
  jobName : Str
deriving DecidableEq, Repr

/-- `createBulkJob` of `src/utils/admin.js` up to the hand-off to
`pollBulkJob`: from the creation POST's outcome, either the poll request it
issues or the error it fails with. -/
def createBulkJobPollTarget (api : Str) (post : BulkPostResult) : Except BulkError PollRequest :=
  match post with
  | .rejected m => .error (.raw m)
  | .response body =>
    match body with
    | .malformed m => .error (.bulkJobFailed m)
    | .noJob => .error (.bulkJobFailed jsTypeErrorMsg)
    | .withJob jobName =>
      .ok { jobKind := if api == liveApi then publishKind else api, jobName := jobName }

/-- `SHOULD_PUBLISH` flag of the bulk pipeline script. -/
def SHOULD_PUBLISH : Bool := true

/-- what the bulk pipeline does after the preview job: the recorded failed
preview resources and the (api, paths) submission of the live bulk job. -/
structure BulkSeedStage where
  previewFailures : List JobResource
  liveSubmission : Option (Str × List Str)
deriving DecidableEq, Repr

/-- second stage of the bulk `seedAllProducts`: split the preview job's
per-path resources by HTTP status and submit the live job over the
successful paths. -/
def seedBulkSecondStage (previewJob : JobDetails) : BulkSeedStage :=
  let failedPreviews := previewJob.data.resources.filter (fun r => !(r.status == 200))
  let successfulPreviewPaths :=
    (previewJob.data.resources.filter (fun r => r.status == 200)).map JobResource.path
  { previewFailures := failedPreviews
  , liveSubmission := if SHOULD_PUBLISH then some (liveApi, successfulPreviewPaths) else none }

/-- JS `path.startsWith('/')`. -/
def startsWithSlash : Str → Bool
  | '/' :: _ => true
  | _ => false

/-- path list submitted to the preview bulk job by the bulk `seedAllProducts`:
first resolved path of each accumulated product, kept only when defined and
starting with a slash. -/
def seedBulkPreviewPathList (env : StoreEnv) (confMap : ConfMap)
    (allProducts : List Product) : List Str :=
  ((allProducts.map (fun product =>
      (getPreviewPublishPaths env confMap product.sku product.urlKey).head?)).filter
    (fun path => path.isSome && startsWithSlash (path.getD []))).map (fun path => path.getD [])

/-- one page of the paginated catalog response consumed by the pipelines. -/
structure PageData where
  items : List Product
  total_pages : Nat
deriving DecidableEq, Repr

/-- per-page product loop of the per-product `seedAllProducts`: look every
product up in the catalog; a lookup failure is recorded with its product
and that product is skipped, a success queues its preview/publish call. -/
def processPageProducts (lookup : Str → Except Str Product) :
    List Product → List (Str × Product) × List Product
  | [] => ([], [])
  | product :: rest =>
    match lookup product.sku with
    | .error e =>
      ((e, product) :: (processPageProducts lookup rest).1, (processPageProducts lookup rest).2)
    | .ok _ =>
      ((processPageProducts lookup rest).1, product :: (processPageProducts lookup rest).2)

/-- accumulated observable state of the per-product pipeline run. -/
structure SeedRunState where
  pagesRequested : List Nat
  catalogFailures : List (Str × Product)
  published : List Product
deriving DecidableEq, Repr

/-- initial state of the per-product pipeline run. -/
def emptySeedRunState : SeedRunState :=
  { pagesRequested := [], catalogFailures := [], published := [] }

/-- fuel-indexed page loop of the per-product `seedAllProducts` in
`src/index.js`: while `currentPage ≤ totalPages`, fetch the page (`none`
models a network/GraphQL/parse failure, which breaks out of the loop),
process its products, take `total_pages` from the response and advance. -/
def seedRun (fetchPage : Nat → Option PageData) (lookup : Str → Except Str Product) :
    Nat → Nat → Nat → SeedRunState → SeedRunState
  | 0, _, _, acc => acc
  | fuel + 1, currentPage, totalPages, acc =>
    if currentPage ≤ totalPages then
      match fetchPage currentPage with
      | none => { acc with pagesRequested := acc.pagesRequested ++ [currentPage] }
      | some pd =>
        seedRun fetchPage lookup fuel (currentPage + 1) pd.total_pages
          { pagesRequested := acc.pagesRequested ++ [currentPage]
          , catalogFailures := acc.catalogFailures ++ (processPageProducts lookup pd.items).1
          , published := acc.published ++ (processPageProducts lookup pd.items).2 }
    else acc

/-- body of an admin preview/live response: `response.json()` throws, it
lacks the operation's result object (`body[op]` undefined), or it carries
the operation's url. -/
inductive AdminBody where
  | malformed (msg : Str)
  | fields (opUrl : Option Str)
deriving DecidableEq, Repr

/-- an admin preview/live HTTP response with its `x-error` header. -/
structure AdminCallResp where
  status : Nat
  body : AdminBody
  xError : Option Str
deriving DecidableEq, Repr

/-- per-operation record aggregated by `callPreviewPublish`. -/
structure OpRecord where
  status : Nat
  url : Str
  message : Option Str
deriving DecidableEq, Repr

/-- the `error || null` fold of the `x-error` header into a record message:
absent or empty headers become no message. -/
def headerMessage (resp : AdminCallResp) : Option Str :=
  match resp.xError with
  | some m => if !m.isEmpty then some m else none
  | none => none

/-- an admin response whose body parses and carries the operation's result
object, so that `callAdminWithOp` does not throw on it. -/
def wellFormedBody (resp : AdminCallResp) : Bool :=
  match resp.body with
  | .fields (some _) => true
  | _ => false

/-- `callAdminWithOp` of `callPreviewPublish`: build the operation's record
from its response, throwing when the body is malformed or lacks the
operation's result object. -/
def callAdminWithOp (resp : AdminCallResp) : Except Str OpRecord :=
  match resp.body with
  | .malformed m => .error m
  | .fields none => .error jsTypeErrorMsg
  | .fields (some url) =>
    .ok { status := resp.status, url := url, message := headerMessage resp }

/-- the per-path record of `callPreviewPublish`: the preview operation's
record, and the live operation's when publishing. -/
structure PathRecord where
  preview : OpRecord
  live : Option OpRecord
deriving DecidableEq, Repr

/-- per-path body of `callPreviewPublish`'s loop: the preview call, then —
when publishing — the live call, each awaited in turn; `respond op path`
is the admin response to operation `op` on `path`. -/
def callPreviewPublishPath (respond : Str → Str → AdminCallResp) (shouldPublish : Bool)
    (path : Str) : Except Str PathRecord := do
  let pre ← callAdminWithOp (respond previewApi path)
  if shouldPublish then
    let liveR ← callAdminWithOp (respond liveApi path)
    pure { preview := pre, live := some liveR }
  else
    pure { preview := pre, live := none }

/-- the path loop of `callPreviewPublish`, in path order. -/
def callPreviewPublishPaths (respond : Str → Str → AdminCallResp) (shouldPublish : Bool) :
    List Str → Except Str (List (Str × PathRecord))
  | [] => .ok []
  | path :: rest => do
    let pr ← callPreviewPublishPath respond shouldPublish path
    let tail ← callPreviewPublishPaths respond shouldPublish rest
    pure ((path, pr) :: tail)

/-- `callPreviewPublish` of `src/utils/admin.js`: resolve the paths, then
issue preview (and, when publishing, live) calls for each. -/
def callPreviewPublish (respond : Str → Str → AdminCallResp) (env : StoreEnv)
    (confMap : ConfMap) (sku urlKey : Str) (shouldPublish : Bool) :
    Except Str (List (Str × PathRecord)) :=
  callPreviewPublishPaths respond shouldPublish (getPreviewPublishPaths env confMap sku urlKey)

/-! String lemmas about the embedded JS string primitives. -/

theorem leadingMatch_iff (pat s : Str) : leadingMatch pat s = true ↔ ∃ t, s = pat ++ t := by
  induction pat generalizing s with
  | nil => simp [leadingMatch]
  | cons p ps ih =>
    cases s with
    | nil => simp [leadingMatch]
    | cons c cs =>
      simp only [leadingMatch, Bool.and_eq_true, beq_iff_eq, ih, List.cons_append,
        List.cons.injEq]
      constructor
      · rintro ⟨rfl, t, rfl⟩
        exact ⟨t, rfl, rfl⟩
      · rintro ⟨t, rfl, rfl⟩
        exact ⟨rfl, t, rfl⟩

theorem includesSub_iff (s pat : Str) : includesSub s pat = true ↔ ∃ a b, s = a ++ pat ++ b := by
  induction s with
  | nil =>
    simp only [includesSub, leadingMatch_iff]
    constructor
    · rintro ⟨t, ht⟩
      exact ⟨[], t, ht⟩
    · rintro ⟨a, b, h⟩
      rcases List.append_eq_nil.mp h.symm with ⟨h1, h2⟩
      rcases List.append_eq_nil.mp h1 with ⟨rfl, rfl⟩
      exact ⟨[], rfl⟩
  | cons c t ih =>
    simp only [includesSub, Bool.or_eq_true, leadingMatch_iff, ih]
    constructor
    · rintro (⟨u, hu⟩ | ⟨a, b, h⟩)
      · exact ⟨[], u, by simpa using hu⟩
      · exact ⟨c :: a, b, by simp [h]⟩
    · rintro ⟨a, b, h⟩
      cases a with
      | nil => exact Or.inl ⟨b, by simpa using h⟩
      | cons a0 a1 =>
        simp only [List.cons_append, List.cons.injEq] at h
        exact Or.inr ⟨a1, b, h.2⟩

theorem includesSub_of_append (a pat b : Str) : includesSub (a ++ pat ++ b) pat = true :=
  (includesSub_iff _ _).mpr ⟨a, b, rfl⟩

theorem replaceFirst_cases (pat repl s : Str) :
    replaceFirst pat repl s = s ∨
      ∃ pre post, s = pre ++ pat ++ post ∧ replaceFirst pat repl s = pre ++ repl ++ post := by
  induction s with
  | nil =>
    by_cases h : leadingMatch pat [] = true
    · rcases (leadingMatch_iff _ _).mp h with ⟨t, ht⟩
      rcases List.append_eq_nil.mp ht.symm with ⟨rfl, rfl⟩
      exact Or.inr ⟨[], [], by simp [replaceFirst, leadingMatch]⟩
    · left
      simp [replaceFirst, h]
  | cons c t ih =>
    by_cases h : leadingMatch pat (c :: t) = true
    · rcases (leadingMatch_iff _ _).mp h with ⟨u, hu⟩
      refine Or.inr ⟨[], u, by simpa using hu, ?_⟩
      have hstep : replaceFirst pat repl (c :: t) = repl ++ (c :: t).drop pat.length := by
        simp [replaceFirst, h]
      rw [hstep, hu, List.drop_left]
      simp
    · rcases ih with heq | ⟨pre, post, hs, hr⟩
      · left
        simp [replaceFirst, h, heq]
      · refine Or.inr ⟨c :: pre, post, by simp [hs], ?_⟩
        simp [replaceFirst, h, hr]

theorem skuToken_tails_not_leading_urlkey :
    ∀ y ∈ skuToken.tails, leadingMatch y urlkeyToken = true → y = [] := by decide

theorem skuToken_not_leading_urlkey_tails :
    ∀ y ∈ urlkeyToken.tails, leadingMatch skuToken y = false := by decide

theorem urlkeyToken_tails_not_leading_sku :
    ∀ y ∈ urlkeyToken.tails, leadingMatch y skuToken = true → y = [] := by decide

/-- replacing the first occurrence of the urlkey placeholder cannot destroy an
occurrence of the sku placeholder: the two placeholder strings cannot overlap
in any position. -/
theorem includesSub_skuToken_replaceFirst (u s : Str) (h : includesSub s skuToken = true) :
    includesSub (replaceFirst urlkeyToken u s) skuToken = true := by
  rcases replaceFirst_cases urlkeyToken u s with heq | ⟨pre, post, hs, hr⟩
  · rw [heq]
    exact h
  · rw [hr]
    rcases (includesSub_iff _ _).mp h with ⟨a, b, hab⟩
    have hsplit : a ++ (skuToken ++ b) = pre ++ (urlkeyToken ++ post) := by
      simpa [List.append_assoc] using hab.symm.trans hs
    rcases List.append_eq_append_iff.mp hsplit with ⟨a2, hpre, h2⟩ | ⟨c2, ha, h2⟩
    · rcases List.append_eq_append_iff.mp h2 with ⟨x, ha2, hb⟩ | ⟨y, hsku, h3⟩
      · refine (includesSub_iff _ _).mpr ⟨a, x ++ u ++ post, ?_⟩
        simp [hpre, ha2, List.append_assoc]
      · rcases List.append_eq_append_iff.mp h3 with ⟨z, hy, hpost⟩ | ⟨w, hurl, hb⟩
        · exfalso
          have hlen := congrArg List.length hsku
          rw [hy] at hlen
          simp [skuToken, urlkeyToken] at hlen
          omega
        · have hymem : y ∈ skuToken.tails := (List.mem_tails y skuToken).mpr ⟨a2, hsku.symm⟩
          have hylead : leadingMatch y urlkeyToken = true :=
            (leadingMatch_iff _ _).mpr ⟨w, hurl⟩
          have hynil : y = [] := skuToken_tails_not_leading_urlkey y hymem hylead
          subst hynil
          refine (includesSub_iff _ _).mpr ⟨a, u ++ post, ?_⟩
          simp only [List.append_nil] at hsku
          simp [hpre, ← hsku, List.append_assoc]
    · rcases List.append_eq_append_iff.mp h2 with ⟨x, hc2, hpost⟩ | ⟨y, hurl, h3⟩
      · refine (includesSub_iff _ _).mpr ⟨pre ++ u ++ x, b, ?_⟩
        simp [hpost, List.append_assoc]
      · rcases List.append_eq_append_iff.mp h3 with ⟨z, hy, hb⟩ | ⟨w, hsku, hpost⟩
        · exfalso
          have hymem : y ∈ urlkeyToken.tails := (List.mem_tails y urlkeyToken).mpr ⟨c2, hurl.symm⟩
          have : leadingMatch skuToken y = true := (leadingMatch_iff _ _).mpr ⟨z, hy⟩
          have hno := skuToken_not_leading_urlkey_tails y hymem
          rw [this] at hno
          exact Bool.noConfusion hno
        · have hymem : y ∈ urlkeyToken.tails := (List.mem_tails y urlkeyToken).mpr ⟨c2, hurl.symm⟩
          have hylead : leadingMatch y skuToken = true := (leadingMatch_iff _ _).mpr ⟨w, hsku⟩
          have hynil : y = [] := urlkeyToken_tails_not_leading_sku y hymem hylead
          subst hynil
          simp only [List.nil_append] at hsku hpost
          refine (includesSub_iff _ _).mpr ⟨pre ++ u, b, ?_⟩
          simp [hpost, ← hsku, List.append_assoc]

/-! Claim theorems. -/

/-- C1 (amended): for every store context, confMap, sku and urlKey, each
returned path has had the sku and urlkey placeholders substituted by
first-occurrence-only string replacement, every returned path contains
neither the sku placeholder nor the urlkey placeholder, any substituted
pattern still containing one of those two placeholders is dropped, and
every substituted matched pattern free of both placeholders is kept.
(Placeholders other than these two are not filtered.) -/
theorem C1_resolver_placeholder_free (env : StoreEnv) (confMap : ConfMap) (sku urlKey : Str) :
    (∀ p ∈ getPreviewPublishPaths env confMap sku urlKey,
        includesSub p skuToken = false ∧ includesSub p urlkeyToken = false)
    ∧ (∀ pat ∈ matchedPathPatterns env confMap,
        includesSub (substituteTokens sku urlKey pat) skuToken = false →
        includesSub (substituteTokens sku urlKey pat) urlkeyToken = false →
        substituteTokens sku urlKey pat ∈ getPreviewPublishPaths env confMap sku urlKey) := by
  constructor
  · intro p hp
    simp only [getPreviewPublishPaths] at hp
    have h2 := (List.mem_filter.mp hp).2
    simp only [Bool.and_eq_true, Bool.not_eq_true'] at h2
    exact h2
  · intro pat hpat h1 h2
    simp only [getPreviewPublishPaths]
    refine List.mem_filter.mpr ⟨List.mem_map_of_mem _ hpat, ?_⟩
    simp [h1, h2]

/-- store context shared by C1's counterexample and witness. -/
def c1Env : StoreEnv := ⟨"main".toList, "default".toList⟩

/-- a third placeholder, neither the sku nor the urlkey one. -/
def otherToken : Str := ['{', '{', 'f', 'o', 'o', '}', '}']

/-- a confMap whose single matching pattern carries the third placeholder. -/
def c1BadConf : ConfMap := [("/p/".toList ++ otherToken, ⟨"main".toList, "default".toList⟩)]

/-- C1 (counterexample): the resolver returns a path that still contains an
unresolved placeholder — the third placeholder is not filtered out, so the
original claim that no returned path contains any unresolved placeholder is
false. -/
theorem C1_counterexample :
    getPreviewPublishPaths c1Env c1BadConf ['A'] ['B'] = ["/p/".toList ++ otherToken]
    ∧ includesSub ("/p/".toList ++ otherToken) otherToken = true
    ∧ otherToken ≠ skuToken ∧ otherToken ≠ urlkeyToken := by decide

/-- confMap used by C1's witness: the pattern of the spec's scenario. -/
def c1Conf : ConfMap := [("/us/p/".toList ++ urlkeyToken, ⟨"main".toList, "default".toList⟩)]

/-- C1 (witness): concrete instance of the amended claim on the spec's
scenario config. -/
theorem C1_witness :
    "/us/p/my-product".toList ∈ getPreviewPublishPaths c1Env c1Conf "ABC".toList "my-product".toList
    ∧ includesSub "/us/p/my-product".toList skuToken = false
    ∧ includesSub "/us/p/my-product".toList urlkeyToken = false :=
  ⟨by decide,
    (C1_resolver_placeholder_free c1Env c1Conf "ABC".toList "my-product".toList).1
      "/us/p/my-product".toList (by decide)⟩

/-- C10 (amended): when the sku argument is empty, the resolver performs no
sku substitution — each matched pattern is mapped to its urlkey-substituted
form alone (urlkey substituted only when urlKey is non-empty) — and every
matched pattern containing the sku placeholder still contains it after
substitution, so it is excluded by the final filter; the returned list is
exactly the substituted matched patterns containing neither placeholder
(in particular a pattern containing the urlkey placeholder is also dropped
when urlKey is empty). -/
theorem C10_empty_sku_resolver (env : StoreEnv) (confMap : ConfMap) (urlKey : Str) :
    getPreviewPublishPaths env confMap [] urlKey
      = ((matchedPathPatterns env confMap).map
          (fun pat => if !urlKey.isEmpty then replaceFirst urlkeyToken urlKey pat else pat)).filter
          (fun p => !includesSub p skuToken && !includesSub p urlkeyToken)
    ∧ ∀ pat ∈ matchedPathPatterns env confMap, includesSub pat skuToken = true →
        includesSub (substituteTokens [] urlKey pat) skuToken = true := by
  constructor
  · have hfun : substituteTokens [] urlKey
        = fun pat => if !urlKey.isEmpty then replaceFirst urlkeyToken urlKey pat else pat := by
      funext pat
      simp [substituteTokens]
    simp [getPreviewPublishPaths, hfun]
  · intro pat _ hsku
    simp only [substituteTokens, List.isEmpty_nil, Bool.not_true, Bool.false_eq_true, if_false]
    by_cases hu : urlKey.isEmpty
    · simpa [hu] using hsku
    · simp only [Bool.not_eq_true] at hu
      simpa [hu] using includesSub_skuToken_replaceFirst urlKey pat hsku

/-- store context shared by C10's counterexample and witness. -/
def c10Env : StoreEnv := ⟨"main".toList, "default".toList⟩

/-- a confMap whose single matching pattern contains only the urlkey placeholder. -/
def c10Conf : ConfMap := [("/us/p/".toList ++ urlkeyToken, ⟨"main".toList, "default".toList⟩)]

/-- C10 (counterexample): with empty sku and empty urlKey, a matched pattern
that contains no sku placeholder is nevertheless absent from the result
(because its urlkey placeholder stays unresolved), so the returned list is
not exactly the matched patterns without the sku placeholder. -/
theorem C10_counterexample :
    matchedPathPatterns c10Env c10Conf = ["/us/p/".toList ++ urlkeyToken]
    ∧ includesSub ("/us/p/".toList ++ urlkeyToken) skuToken = false
    ∧ getPreviewPublishPaths c10Env c10Conf [] [] = [] := by decide

/-- a confMap whose single matching pattern contains the sku placeholder. -/
def c10SkuConf : ConfMap := [("/p/".toList ++ skuToken, ⟨"main".toList, "default".toList⟩)]

/-- C10 (witness): concrete instance of the amended claim — with empty sku,
a matched pattern containing the sku placeholder still contains it after
urlkey substitution. -/
theorem C10_witness :
    ("/p/".toList ++ skuToken) ∈ matchedPathPatterns c10Env c10SkuConf
    ∧ includesSub ("/p/".toList ++ skuToken) skuToken = true
    ∧ includesSub (substituteTokens [] ['k'] ("/p/".toList ++ skuToken)) skuToken = true :=
  ⟨by decide, by decide,
    (C10_empty_sku_resolver c10Env c10SkuConf ['k']).2 ("/p/".toList ++ skuToken)
      (by decide) (by decide)⟩

/-- C6 (amended): `createAdminUrl` includes the org/site/ref segment between
the api segment and the resource path exactly when org and site are truthy
and the effective ref — the given ref, defaulting to `main` when absent —
is non-empty; it omits the segment when org or site is absent or empty, or
when ref is explicitly the empty string.  An absent ref therefore does not
suppress the segment: it is rendered as `main`.  Query pairs sit after the
path, in a separate component. -/
theorem C6_createAdminUrl_segment (config : AdminUrlConfig) (api path : Str)
    (searchParams : List (Str × Str)) :
    (truthy config.org = true → truthy config.site = true →
      (config.ref.getD mainRef).isEmpty = false →
      (createAdminUrl config api path searchParams).pathname
        = ('/' :: api) ++ ('/' :: config.org.getD []) ++ ('/' :: config.site.getD [])
            ++ ('/' :: config.ref.getD mainRef) ++ path)
    ∧ ((truthy config.org = false ∨ truthy config.site = false ∨
          (config.ref.getD mainRef).isEmpty = true) →
      (createAdminUrl config api path searchParams).pathname = ('/' :: api) ++ path) := by
  constructor
  · intro h1 h2 h3
    simp [createAdminUrl, h1, h2, h3]
  · intro h
    rcases h with h | h | h <;> simp [createAdminUrl, h]

/-- config with org and site present but ref absent, for C6's counterexample. -/
def c6Config : AdminUrlConfig :=
  { org := some ['o'], site := some ['s'], ref := none, adminVersion := none }

/-- C6 (counterexample): with ref absent the segment is not omitted — the
default `main` is rendered — so the original claim that the segment is
omitted whenever any of org, site, ref is absent is false. -/
theorem C6_counterexample :
    c6Config.ref = none
    ∧ (createAdminUrl c6Config previewApi ['/', 'x'] []).pathname = "/preview/o/s/main/x".toList
    ∧ (createAdminUrl c6Config previewApi ['/', 'x'] []).pathname
        ≠ ('/' :: previewApi) ++ ['/', 'x'] := by decide

/-- config with org, site and ref all present, for C6's witness. -/
def c6Full : AdminUrlConfig :=
  { org := some ['o'], site := some ['s'], ref := some ['r'], adminVersion := none }

/-- C6 (witness): concrete instance of the amended claim with all three
segment parts present. -/
theorem C6_witness :
    truthy c6Full.org = true ∧ truthy c6Full.site = true
    ∧ (c6Full.ref.getD mainRef).isEmpty = false
    ∧ (createAdminUrl c6Full previewApi ['/', 'x'] []).pathname
        = ('/' :: previewApi) ++ ('/' :: c6Full.org.getD []) ++ ('/' :: c6Full.site.getD [])
            ++ ('/' :: c6Full.ref.getD mainRef) ++ ['/', 'x'] :=
  ⟨by decide, by decide, by decide,
    (C6_createAdminUrl_segment c6Full previewApi ['/', 'x'] []).1
      (by decide) (by decide) (by decide)⟩

/-- C7: on an ok response, the catalog lookup fails with the not-found cause
when the product list is empty, fails with the distinct json-error cause
when the body is malformed, and yields the product when exactly one is
returned. -/
theorem C7_fetchCatalogProduct (resp : CatalogResp) :
    (resp.ok = true → resp.body = .products [] →
      fetchCatalogProduct resp = .error (.wrapped .notFound))
    ∧ (∀ m, resp.ok = true → resp.body = .malformed m →
      fetchCatalogProduct resp = .error (.wrapped (.jsonErr m)))
    ∧ (∀ p, resp.ok = true → resp.body = .products [p] →
      fetchCatalogProduct resp = .ok p)
    ∧ (∀ m, (CatalogLookupError.wrapped .notFound) ≠ .wrapped (.jsonErr m)) := by
  refine ⟨?_, ?_, ?_, ?_⟩
  · intro h hb
    simp [fetchCatalogProduct, h, hb]
  · intro m h hb
    simp [fetchCatalogProduct, h, hb]
  · intro p h hb
    simp [fetchCatalogProduct, h, hb]
  · intro m
    simp

/-- an ok catalog response whose product list is empty, for C7's witness. -/
def c7Empty : CatalogResp := ⟨true, 200, [], .products []⟩

/-- C7 (witness): concrete instance — the empty-list response fails with the
not-found cause. -/
theorem C7_witness :
    c7Empty.ok = true ∧ c7Empty.body = .products []
    ∧ fetchCatalogProduct c7Empty = .error (.wrapped .notFound) :=
  ⟨rfl, rfl, (C7_fetchCatalogProduct c7Empty).1 rfl rfl⟩

/-- C9 (amended): the paths submitted to the preview bulk job are, product by
product in accumulated order, the first path the resolver returns for that
product's sku and urlKey — skipping a product when the resolver returns no
path, and also when its first resolved path does not start with `/`. -/
theorem C9_bulk_preview_paths (env : StoreEnv) (confMap : ConfMap) (allProducts : List Product) :
    seedBulkPreviewPathList env confMap allProducts
      = allProducts.filterMap (fun product =>
          match (getPreviewPublishPaths env confMap product.sku product.urlKey).head? with
          | some path => if startsWithSlash path then some path else none
          | none => none) := by
  induction allProducts with
  | nil => rfl
  | cons product rest ih =>
    simp only [seedBulkPreviewPathList, List.map_cons, List.filterMap_cons]
    cases hh : (getPreviewPublishPaths env confMap product.sku product.urlKey).head? with
    | none =>
      simpa [seedBulkPreviewPathList, hh] using ih
    | some path =>
      by_cases hs : startsWithSlash path
      · simpa [seedBulkPreviewPathList, hh, hs] using ih
      · simpa [seedBulkPreviewPathList, hh, hs] using ih

/-- store context for C9's counterexample. -/
def c9Env : StoreEnv := ⟨['m'], ['d']⟩

/-- confMap whose single matching pattern has no leading slash. -/
def c9Conf : ConfMap := [(['x'], ⟨['m'], ['d']⟩)]

/-- a sample product for C9's counterexample. -/
def c9Product : Product := ⟨['s'], ['n'], ['k']⟩

/-- C9 (counterexample): a product whose resolver returns a first path is
nevertheless skipped because that path does not start with `/`, so the
original claim — that only products with no resolved path are skipped — is
false. -/
theorem C9_counterexample :
    getPreviewPublishPaths c9Env c9Conf c9Product.sku c9Product.urlKey = [['x']]
    ∧ seedBulkPreviewPathList c9Env c9Conf [c9Product] = [] := by decide

/-- soundness of the poll loop: a returned job is the first stopped response
from the start index on, and the slept time is one delay per poll made. -/
theorem pollBulkJobRun_some (responses : Nat → JobDetails) :
    ∀ fuel i elapsed r t, pollBulkJobRun responses fuel i elapsed = some (r, t) →
      ∃ k, i ≤ k ∧ (∀ j, i ≤ j → j < k → (responses j).state ≠ stoppedState)
        ∧ r = responses k ∧ r.state = stoppedState
        ∧ t = elapsed + pollDelayMs * (k - i + 1) := by
  intro fuel
  induction fuel with
  | zero =>
    intro i elapsed r t h
    simp [pollBulkJobRun] at h
  | succ f ih =>
    intro i elapsed r t h
    by_cases hs : (responses i).state == stoppedState
    · simp only [pollBulkJobRun, hs, if_true, Option.some.injEq, Prod.mk.injEq] at h
      refine ⟨i, Nat.le_refl i, ?_, h.1.symm, ?_, ?_⟩
      · intro j h1 h2
        omega
      · rw [← h.1]
        exact beq_iff_eq.mp hs
      · simp [← h.2, pollDelayMs]
    · simp only [pollBulkJobRun, hs, if_false, Bool.false_eq_true] at h
      rcases ih (i + 1) (elapsed + pollDelayMs) r t h with ⟨k, hik, hpre, hr, hst, ht⟩
      refine ⟨k, by omega, ?_, hr, hst, ?_⟩
      · intro j h1 h2
        rcases Nat.eq_or_lt_of_le h1 with rfl | hlt
        · exact fun hc => hs (beq_iff_eq.mpr hc)
        · exact hpre j hlt h2
      · simp only [pollDelayMs] at ht ⊢
        omega

/-- completeness of the poll loop: with a stopped response in reach of the
fuel, the loop returns. -/
theorem pollBulkJobRun_of_stopped (responses : Nat → JobDetails) :
    ∀ fuel i elapsed k, i ≤ k → k < i + fuel → (responses k).state = stoppedState →
      ∃ out, pollBulkJobRun responses fuel i elapsed = some out := by
  intro fuel
  induction fuel with
  | zero =>
    intro i elapsed k h1 h2 _
    omega
  | succ f ih =>
    intro i elapsed k h1 h2 h3
    by_cases hs : (responses i).state == stoppedState
    · exact ⟨(responses i, elapsed + pollDelayMs), by simp [pollBulkJobRun, hs]⟩
    · have hik : i ≠ k := by
        intro he
        subst he
        exact hs (beq_iff_eq.mpr h3)
      rcases ih (i + 1) (elapsed + pollDelayMs) k (by omega) (by omega) h3 with ⟨out, hout⟩
      exact ⟨out, by simp [pollBulkJobRun, hs, hout]⟩

/-- C2: the embedded polling loop terminates (for some fuel) exactly when
some response in the stream has state `stopped`; a returned value is the
first stopped response — so the loop returns only after a polled response
reports `stopped`, returning that job object — and the slept time is a
fixed 1000 ms per poll made, with no iteration bound or timeout other than
the stream itself providing a stopped response. -/
theorem C2_pollBulkJob_terminates (responses : Nat → JobDetails) :
    ((∃ fuel out, pollBulkJobRun responses fuel 0 0 = some out)
        ↔ ∃ i, (responses i).state = stoppedState)
    ∧ (∀ fuel r t, pollBulkJobRun responses fuel 0 0 = some (r, t) →
        r.state = stoppedState
        ∧ ∃ k, r = responses k ∧ (∀ j < k, (responses j).state ≠ stoppedState)
            ∧ t = pollDelayMs * (k + 1)) := by
  constructor
  · constructor
    · rintro ⟨fuel, out, h⟩
      rcases pollBulkJobRun_some responses fuel 0 0 out.1 out.2 h with ⟨k, _, _, hr, hst, _⟩
      exact ⟨k, hr ▸ hst⟩
    · rintro ⟨i, hi⟩
      rcases pollBulkJobRun_of_stopped responses (i + 1) 0 0 i (Nat.zero_le i) (by omega) hi
        with ⟨out, hout⟩
      exact ⟨i + 1, out, hout⟩
  · intro fuel r t h
    rcases pollBulkJobRun_some responses fuel 0 0 r t h with ⟨k, _, hpre, hr, hst, ht⟩
    refine ⟨hst, k, hr, fun j hj => hpre j (Nat.zero_le j) hj, ?_⟩
    simpa using ht

/-- an already-stopped job detail response, for C2's witness. -/
def c2Job : JobDetails := ⟨stoppedState, ⟨[]⟩⟩

/-- C2 (witness): concrete instance — polling a stream that reports
`stopped` at once returns that job after a single 1000 ms sleep. -/
theorem C2_witness :
    pollBulkJobRun (fun _ => c2Job) 1 0 0 = some (c2Job, 1000)
    ∧ c2Job.state = stoppedState :=
  ⟨rfl, ((C2_pollBulkJob_terminates (fun _ => c2Job)).2 1 c2Job 1000 rfl).1⟩

/-- C3: under per-path uniqueness of the preview job's resource list, the
bulk pipeline submits the live job with exactly the paths whose preview
status is HTTP 200 — membership in the submitted list coincides with having
a 200 resource — while every non-200 resource is recorded in the preview
failure list and its path is never submitted, and the failure list holds
only non-200 resources of the job. -/
theorem C3_bulk_live_submission (previewJob : JobDetails)
    (hnodup : (previewJob.data.resources.map JobResource.path).Nodup) :
    ∃ paths, (seedBulkSecondStage previewJob).liveSubmission = some (liveApi, paths)
      ∧ (∀ p, p ∈ paths ↔ ∃ r ∈ previewJob.data.resources, r.status = 200 ∧ r.path = p)
      ∧ (∀ r ∈ previewJob.data.resources, r.status ≠ 200 →
          r ∈ (seedBulkSecondStage previewJob).previewFailures ∧ r.path ∉ paths)
      ∧ (∀ r ∈ (seedBulkSecondStage previewJob).previewFailures,
          r.status ≠ 200 ∧ r ∈ previewJob.data.resources) := by
  refine ⟨(previewJob.data.resources.filter
      (fun r : JobResource => r.status == 200)).map JobResource.path, rfl, ?_, ?_, ?_⟩
  · intro p
    constructor
    · intro hp
      rcases List.mem_map.mp hp with ⟨r, hr, hrp⟩
      have hr2 := List.mem_filter.mp hr
      exact ⟨r, hr2.1, beq_iff_eq.mp hr2.2, hrp⟩
    · rintro ⟨r, hr, hst, hrp⟩
      exact List.mem_map.mpr ⟨r, List.mem_filter.mpr ⟨hr, beq_iff_eq.mpr hst⟩, hrp⟩
  · intro r hr hst
    constructor
    · simp only [seedBulkSecondStage]
      exact List.mem_filter.mpr ⟨hr, by simpa using hst⟩
    · intro hp
      rcases List.mem_map.mp hp with ⟨r2, hr2, hrp⟩
      have hr3 := List.mem_filter.mp hr2
      have : r2 = r := List.inj_on_of_nodup_map hnodup hr3.1 hr hrp
      rw [this] at hr3
      exact hst (beq_iff_eq.mp hr3.2)
  · intro r hr
    simp only [seedBulkSecondStage] at hr
    have hr2 := List.mem_filter.mp hr
    refine ⟨?_, hr2.1⟩
    simpa using hr2.2

/-- a preview job report with one 200 path and one 500 path, for C3's witness. -/
def c3Job : JobDetails := ⟨stoppedState, ⟨[⟨['/', 'a'], 200⟩, ⟨['/', 'b'], 500⟩]⟩⟩

/-- C3 (witness): concrete instance of the live-submission characterisation. -/
theorem C3_witness :
    (c3Job.data.resources.map JobResource.path).Nodup
    ∧ ∃ paths, (seedBulkSecondStage c3Job).liveSubmission = some (liveApi, paths)
        ∧ (∀ p, p ∈ paths ↔ ∃ r ∈ c3Job.data.resources, r.status = 200 ∧ r.path = p) := by
  refine ⟨by decide, ?_⟩
  rcases C3_bulk_live_submission c3Job (by decide) with ⟨paths, h1, h2, _, _⟩
  exact ⟨paths, h1, h2⟩

/-- C4 (amended): when the creation POST yields a body carrying a job name,
`createBulkJob` polls with that name, with job kind `publish` when the api
is `live` and the unmodified api otherwise; when the body is malformed or
lacks a job object, it fails with the bulk-job-failed wrapper around the
underlying cause; but a rejection of the POST itself propagates unwrapped. -/
theorem C4_createBulkJob_dispatch (api : Str) (post : BulkPostResult) :
    (∀ name, post = .response (.withJob name) →
      createBulkJobPollTarget api post
        = .ok { jobKind := if api == liveApi then publishKind else api, jobName := name })
    ∧ (∀ m, post = .response (.malformed m) →
      createBulkJobPollTarget api post = .error (.bulkJobFailed m))
    ∧ (post = .response .noJob →
      createBulkJobPollTarget api post = .error (.bulkJobFailed jsTypeErrorMsg))
    ∧ (∀ m, post = .rejected m →
      createBulkJobPollTarget api post = .error (.raw m)) := by
  refine ⟨?_, ?_, ?_, ?_⟩
  · intro name h
    subst h
    rfl
  · intro m h
    subst h
    rfl
  · intro h
    subst h
    rfl
  · intro m h
    subst h
    rfl

/-- discriminator for the bulk-job-failed wrapper, used by C4's counterexample. -/
def wrappedBulkFailure : Except BulkError PollRequest → Bool
  | .error (.bulkJobFailed _) => true
  | _ => false

/-- message of a rejected creation POST, for C4's counterexample. -/
def c4NetMsg : Str := "fetch failed".toList

/-- C4 (counterexample): when the creation POST itself rejects — job creation
fails — the error propagates unwrapped (the await sits outside the try), so
the original claim that every job-creation failure is wrapped in a
BulkJobError is false. -/
theorem C4_counterexample :
    createBulkJobPollTarget previewApi (.rejected c4NetMsg) = .error (.raw c4NetMsg)
    ∧ wrappedBulkFailure (createBulkJobPollTarget previewApi (.rejected c4NetMsg)) = false :=
  ⟨rfl, rfl⟩

/-- C4 (witness): concrete instance — a live-api job with a returned name is
polled under the publish job kind. -/
theorem C4_witness :
    (BulkPostResult.response (.withJob ['j', '1']) = .response (.withJob ['j', '1']))
    ∧ createBulkJobPollTarget liveApi (.response (.withJob ['j', '1']))
        = .ok { jobKind := publishKind, jobName := ['j', '1'] } :=
  ⟨rfl, ((C4_createBulkJob_dispatch liveApi (.response (.withJob ['j', '1']))).1
    ['j', '1'] rfl).trans rfl⟩

/-- pages already recorded stay recorded as the run continues. -/
theorem seedRun_pages_mono (fetchPage : Nat → Option PageData) (lookup : Str → Except Str Product) :
    ∀ fuel cp tp acc q, q ∈ acc.pagesRequested →
      q ∈ (seedRun fetchPage lookup fuel cp tp acc).pagesRequested := by
  intro fuel
  induction fuel with
  | zero =>
    intro cp tp acc q h
    simpa [seedRun] using h
  | succ f ih =>
    intro cp tp acc q h
    by_cases hle : cp ≤ tp
    · cases hfp : fetchPage cp with
      | none =>
        simp only [seedRun, hle, if_true, hfp]
        simp [h]
      | some pd =>
        simp only [seedRun, hle, if_true, hfp]
        exact ih _ _ _ q (by simp [h])
    · simpa [seedRun, hle] using h

/-- every page the run newly requests is at or beyond the current page. -/
theorem seedRun_pages_lower (fetchPage : Nat → Option PageData) (lookup : Str → Except Str Product) :
    ∀ fuel cp tp acc q, q ∈ (seedRun fetchPage lookup fuel cp tp acc).pagesRequested →
      q ∈ acc.pagesRequested ∨ cp ≤ q := by
  intro fuel
  induction fuel with
  | zero =>
    intro cp tp acc q h
    exact Or.inl (by simpa [seedRun] using h)
  | succ f ih =>
    intro cp tp acc q h
    by_cases hle : cp ≤ tp
    · cases hfp : fetchPage cp with
      | none =>
        simp only [seedRun, hle, if_true, hfp] at h
        rcases List.mem_append.mp h with h1 | h1
        · exact Or.inl h1
        · right
          simp at h1
          omega
      | some pd =>
        simp only [seedRun, hle, if_true, hfp] at h
        rcases ih (cp + 1) pd.total_pages _ q h with h1 | h1
        · rcases List.mem_append.mp h1 with h2 | h2
          · exact Or.inl h2
          · right
            simp at h2
            omega
        · right
          omega
    · exact Or.inl (by simpa [seedRun, hle] using h)

/-- a page whose fetch fails is the last page the run ever requests. -/
theorem seedRun_failed_page_last (fetchPage : Nat → Option PageData)
    (lookup : Str → Except Str Product) (p : Nat) (hp : fetchPage p = none) :
    ∀ fuel cp tp acc q,
      p ∈ (seedRun fetchPage lookup fuel cp tp acc).pagesRequested →
      q ∈ (seedRun fetchPage lookup fuel cp tp acc).pagesRequested →
      p ∈ acc.pagesRequested ∨ q ∈ acc.pagesRequested ∨ q ≤ p := by
  intro fuel
  induction fuel with
  | zero =>
    intro cp tp acc q hmem _
    exact Or.inl (by simpa [seedRun] using hmem)
  | succ f ih =>
    intro cp tp acc q hmem hq
    by_cases hle : cp ≤ tp
    · cases hfp : fetchPage cp with
      | none =>
        simp only [seedRun, hle, if_true, hfp] at hmem hq
        rcases List.mem_append.mp hmem with h1 | h1
        · exact Or.inl h1
        · rcases List.mem_append.mp hq with h2 | h2
          · exact Or.inr (Or.inl h2)
          · right; right
            simp at h1 h2
            omega
      | some pd =>
        simp only [seedRun, hle, if_true, hfp] at hmem hq
        rcases ih (cp + 1) pd.total_pages _ q hmem hq with h1 | h1 | h1
        · rcases List.mem_append.mp h1 with h2 | h2
          · exact Or.inl h2
          · exfalso
            simp at h2
            rw [h2] at hp
            rw [hp] at hfp
            cases hfp
        · rcases List.mem_append.mp h1 with h2 | h2
          · exact Or.inr (Or.inl h2)
          · rcases seedRun_pages_lower fetchPage lookup f (cp + 1) pd.total_pages _ p hmem
              with h3 | h3
            · rcases List.mem_append.mp h3 with h4 | h4
              · exact Or.inl h4
              · exfalso
                simp at h4
                rw [h4] at hp
                rw [hp] at hfp
                cases hfp
            · right; right
              simp at h2
              omega
        · exact Or.inr (Or.inr h1)
    · exact Or.inl (by simpa [seedRun, hle] using hmem)

/-- the per-page product loop records exactly the failing lookups with their
products, in order, and queues exactly the products whose lookup succeeds,
in order. -/
theorem processPageProducts_eq (lookup : Str → Except Str Product) :
    ∀ products, processPageProducts lookup products
      = (products.filterMap (fun product =>
            match lookup product.sku with
            | .error e => some (e, product)
            | .ok _ => none),
         products.filter (fun product =>
            match lookup product.sku with
            | .error _ => false
            | .ok _ => true)) := by
  intro products
  induction products with
  | nil => rfl
  | cons product rest ih =>
    cases hl : lookup product.sku with
    | error e =>
      simp [processPageProducts, List.filterMap_cons, List.filter_cons, hl, ih]
    | ok p =>
      simp [processPageProducts, List.filterMap_cons, List.filter_cons, hl, ih]

/-- C5: in the per-product pipeline, a page fetch failure ends the run — no
page beyond the failed one is ever requested; the per-product loop records
each catalog-lookup failure with exactly its product and skips only that
product, keeping all successfully looked-up products of the page; and a
page full of lookup failures does not stop pagination — the next page (when
within the reported total) is still requested. -/
theorem C5_seed_failure_policy (fetchPage : Nat → Option PageData)
    (lookup : Str → Except Str Product) :
    (∀ fuel cp tp p q, fetchPage p = none →
      p ∈ (seedRun fetchPage lookup fuel cp tp emptySeedRunState).pagesRequested →
      q ∈ (seedRun fetchPage lookup fuel cp tp emptySeedRunState).pagesRequested → q ≤ p)
    ∧ (∀ products,
        processPageProducts lookup products
          = (products.filterMap (fun product =>
                match lookup product.sku with
                | .error e => some (e, product)
                | .ok _ => none),
             products.filter (fun product =>
                match lookup product.sku with
                | .error _ => false
                | .ok _ => true)))
    ∧ (∀ fuel cp tp pd, cp ≤ tp → fetchPage cp = some pd → cp + 1 ≤ pd.total_pages →
        (cp + 1) ∈ (seedRun fetchPage lookup (fuel + 2) cp tp emptySeedRunState).pagesRequested) := by
  refine ⟨?_, processPageProducts_eq lookup, ?_⟩
  · intro fuel cp tp p q hfp hp hq
    rcases seedRun_failed_page_last fetchPage lookup p hfp fuel cp tp emptySeedRunState q hp hq
      with h | h | h
    · simp [emptySeedRunState] at h
    · simp [emptySeedRunState] at h
    · exact h
  · intro fuel cp tp pd hle hfp hnext
    have h1 : seedRun fetchPage lookup (fuel + 2) cp tp emptySeedRunState
        = seedRun fetchPage lookup (fuel + 1) (cp + 1) pd.total_pages
            { pagesRequested := emptySeedRunState.pagesRequested ++ [cp]
            , catalogFailures :=
                emptySeedRunState.catalogFailures ++ (processPageProducts lookup pd.items).1
            , published :=
                emptySeedRunState.published ++ (processPageProducts lookup pd.items).2 } := by
      simp [seedRun, hle, hfp]
    rw [h1]
    cases hfp2 : fetchPage (cp + 1) with
    | none =>
      simp [seedRun, hnext, hfp2, emptySeedRunState]
    | some pd2 =>
      simp only [seedRun, hnext, if_true, hfp2]
      apply seedRun_pages_mono
      simp

/-- mocked catalog pages for C5's witness: page 1 has two products, page 2
fails to fetch. -/
def c5Pages : Nat → Option PageData :=
  fun n => if n = 1 then some ⟨[⟨['a'], ['a'], ['a']⟩, ⟨['b'], ['b'], ['b']⟩], 2⟩ else none

/-- mocked catalog lookup for C5's witness: sku `a` exists, everything else
fails. -/
def c5Lookup : Str → Except Str Product :=
  fun sku => if sku = ['a'] then .ok ⟨['a'], ['a'], ['a']⟩ else .error ['e']

/-- C5 (witness): concrete run — page 2's failed fetch is the last page
requested, the failing product is recorded with its error while the other
product of the same page is still published. -/
theorem C5_witness :
    c5Pages 2 = none
    ∧ 2 ∈ (seedRun c5Pages c5Lookup 3 1 2 emptySeedRunState).pagesRequested
    ∧ 1 ∈ (seedRun c5Pages c5Lookup 3 1 2 emptySeedRunState).pagesRequested
    ∧ 1 ≤ 2
    ∧ (seedRun c5Pages c5Lookup 3 1 2 emptySeedRunState).catalogFailures
        = [(['e'], ⟨['b'], ['b'], ['b']⟩)]
    ∧ (seedRun c5Pages c5Lookup 3 1 2 emptySeedRunState).published = [⟨['a'], ['a'], ['a']⟩] :=
  ⟨by decide, by decide, by decide,
    (C5_seed_failure_policy c5Pages c5Lookup).1 3 1 2 2 1 (by decide) (by decide) (by decide),
    by decide, by decide⟩

/-- a well-formed admin response always produces its operation's record. -/
theorem callAdminWithOp_wf (resp : AdminCallResp) (h : wellFormedBody resp = true) :
    ∃ u, resp.body = .fields (some u)
      ∧ callAdminWithOp resp
          = .ok { status := resp.status, url := u, message := headerMessage resp } := by
  unfold wellFormedBody at h
  cases hb : resp.body with
  | malformed m =>
    rw [hb] at h
    simp at h
  | fields opt =>
    cases opt with
    | none =>
      rw [hb] at h
      simp at h
    | some u =>
      refine ⟨u, rfl, ?_⟩
      simp [callAdminWithOp, hb]

/-- the path loop of `callPreviewPublish` over well-formed responses: it
returns one record per path in order, the preview record is always taken
from the preview response, and — when publishing — the live record is
always present, taken from the live response, regardless of the preview
call's status. -/
theorem callPreviewPublishPaths_ok (respond : Str → Str → AdminCallResp) (shouldPublish : Bool)
    (h : ∀ op path, wellFormedBody (respond op path) = true) :
    ∀ paths, ∃ recs, callPreviewPublishPaths respond shouldPublish paths = .ok recs
      ∧ recs.map Prod.fst = paths
      ∧ ∀ pr ∈ recs,
          callAdminWithOp (respond previewApi pr.1) = .ok pr.2.preview
          ∧ (shouldPublish = true → ∃ lr, pr.2.live = some lr
              ∧ callAdminWithOp (respond liveApi pr.1) = .ok lr)
          ∧ (shouldPublish = false → pr.2.live = none) := by
  intro paths
  induction paths with
  | nil => exact ⟨[], rfl, rfl, by simp⟩
  | cons path rest ih =>
    rcases ih with ⟨recs, hrec, hmap, hall⟩
    rcases callAdminWithOp_wf (respond previewApi path) (h previewApi path) with ⟨u, _, hpre⟩
    cases shouldPublish with
    | true =>
      rcases callAdminWithOp_wf (respond liveApi path) (h liveApi path) with ⟨v, _, hlive⟩
      refine ⟨(path,
          { preview := { status := (respond previewApi path).status, url := u
                       , message := headerMessage (respond previewApi path) }
          , live := some { status := (respond liveApi path).status, url := v
                         , message := headerMessage (respond liveApi path) } }) :: recs,
        ?_, ?_, ?_⟩
      · simp only [callPreviewPublishPaths, callPreviewPublishPath, hpre, hlive, hrec]
        rfl
      · simpa using hmap
      · intro pr hpr
        rcases List.mem_cons.mp hpr with rfl | hpr2
        · exact ⟨hpre, fun _ => ⟨_, rfl, hlive⟩, fun hc => Bool.noConfusion hc⟩
        · exact hall pr hpr2
    | false =>
      refine ⟨(path,
          { preview := { status := (respond previewApi path).status, url := u
                       , message := headerMessage (respond previewApi path) }
          , live := none }) :: recs, ?_, ?_, ?_⟩
      · simp only [callPreviewPublishPaths, callPreviewPublishPath, hpre, hrec]
        rfl
      · simpa using hmap
      · intro pr hpr
        rcases List.mem_cons.mp hpr with rfl | hpr2
        · exact ⟨hpre, fun hc => Bool.noConfusion hc, fun _ => rfl⟩
        · exact hall pr hpr2

/-- C8: over well-formed admin responses, the per-product preview/publish
call returns one record per resolved path, in resolver order; each record
carries the preview response's status and x-error message, and — when
publishing — also a live record with the live response's status and
message, present even when the preview call failed (any preview status);
without publishing no live record is made. -/
theorem C8_callPreviewPublish_no_short_circuit (respond : Str → Str → AdminCallResp)
    (env : StoreEnv) (confMap : ConfMap) (sku urlKey : Str) (shouldPublish : Bool)
    (h : ∀ op path, wellFormedBody (respond op path) = true) :
    ∃ recs, callPreviewPublish respond env confMap sku urlKey shouldPublish = .ok recs
      ∧ recs.map Prod.fst = getPreviewPublishPaths env confMap sku urlKey
      ∧ ∀ pr ∈ recs,
          pr.2.preview.status = (respond previewApi pr.1).status
          ∧ pr.2.preview.message = headerMessage (respond previewApi pr.1)
          ∧ (shouldPublish = true → ∃ lr, pr.2.live = some lr
              ∧ lr.status = (respond liveApi pr.1).status
              ∧ lr.message = headerMessage (respond liveApi pr.1))
          ∧ (shouldPublish = false → pr.2.live = none) := by
  rcases callPreviewPublishPaths_ok respond shouldPublish h
      (getPreviewPublishPaths env confMap sku urlKey) with ⟨recs, h1, h2, h3⟩
  refine ⟨recs, h1, h2, ?_⟩
  intro pr hpr
  rcases h3 pr hpr with ⟨hpre, hlt, hlf⟩
  rcases callAdminWithOp_wf (respond previewApi pr.1) (h previewApi pr.1) with ⟨u, _, hpre2⟩
  have hprec : pr.2.preview
      = { status := (respond previewApi pr.1).status, url := u
        , message := headerMessage (respond previewApi pr.1) } :=
    Except.ok.inj (hpre.symm.trans hpre2)
  refine ⟨by rw [hprec], by rw [hprec], ?_, hlf⟩
  intro hsp
  rcases hlt hsp with ⟨lr, hsome, hok⟩
  rcases callAdminWithOp_wf (respond liveApi pr.1) (h liveApi pr.1) with ⟨v, _, hlive2⟩
  have hlrec : lr
      = { status := (respond liveApi pr.1).status, url := v
        , message := headerMessage (respond liveApi pr.1) } :=
    Except.ok.inj (hok.symm.trans hlive2)
  exact ⟨lr, hsome, by rw [hlrec], by rw [hlrec]⟩

/-- mocked admin responses for C8's witness: the preview call fails with
status 500 and an x-error header, the live call succeeds with status 200 —
both bodies well-formed. -/
def c8Respond : Str → Str → AdminCallResp :=
  fun op path =>
    { status := if op == previewApi then 500 else 200
    , body := .fields (some ('u' :: path))
    , xError := if op == previewApi then some ['e'] else none }

/-- store context for C8's witness. -/
def c8Env : StoreEnv := ⟨['m'], ['d']⟩

/-- confMap for C8's witness: one matching placeholder-free pattern. -/
def c8Conf : ConfMap := [(['/', 'q'], ⟨['m'], ['d']⟩)]

/-- C8 (witness): concrete instance — with a failing preview response the
live call is still made and recorded. -/
theorem C8_witness :
    (∀ op path, wellFormedBody (c8Respond op path) = true)
    ∧ ∃ recs, callPreviewPublish c8Respond c8Env c8Conf ['s'] ['k'] true = .ok recs
        ∧ recs.map Prod.fst = getPreviewPublishPaths c8Env c8Conf ['s'] ['k']
        ∧ ∀ pr ∈ recs,
            pr.2.preview.status = (c8Respond previewApi pr.1).status
            ∧ pr.2.preview.message = headerMessage (c8Respond previewApi pr.1)
            ∧ (true = true → ∃ lr, pr.2.live = some lr
                ∧ lr.status = (c8Respond liveApi pr.1).status
                ∧ lr.message = headerMessage (c8Respond liveApi pr.1))
            ∧ (true = false → pr.2.live = none) :=
  ⟨fun _ _ => rfl,
    C8_callPreviewPublish_no_short_circuit c8Respond c8Env c8Conf ['s'] ['k'] true
      (fun _ _ => rfl)⟩

end SeedCatalog
